import Mathlib

/-!
Verification of the blarify graph-persistence layer.

This file gives a shallow embedding of `blarify/db_managers/neo4j_manager.py`
(`Neo4jManager`), of the result dataclasses in
`blarify/db_managers/models/node_result.py`, and of the tool wrapper
`blarify/agent/tools/GraphQueryTool.py`, together with proofs about the
embedded definitions.

The Neo4j store is modelled as a property graph: a list of stored nodes
(each a label list plus a property map) and a list of stored relationships
(each identified by the indices of its two endpoint nodes, its type string
and its `scopeText` property, which is exactly the identity key used by
`apoc.merge.relationship` in `_create_edges_txn`).  Cypher `MERGE` /
`apoc.merge.node` semantics: a node "matches" when it carries all the given
labels and agrees with the given identity map on every key; if some node
matches, nothing is written (the `onMatch` map in the source is `{}`),
otherwise a fresh node with exactly those labels and properties is created.
-/

/-- Property values stored on nodes (strings and integers cover every
property the source reads or writes: ids, names, paths, line numbers). -/
inductive PVal where
  | s (v : String)
  | i (v : Int)
deriving DecidableEq, Repr

/-- Lookup in a property map, first binding wins (Python dicts, the source
of all property maps in the code, have unique keys; Neo4j maps likewise). -/
def plookup (ps : List (String × PVal)) (k : String) : Option PVal :=
  (ps.find? (fun kv => kv.1 = k)).map (fun kv => kv.2)

/-- Embedding of `apoc.map.merge(a, b)` from `_create_nodes_txn`: union of
the two maps, the second map winning on shared keys. -/
def mergeMap (a b : List (String × PVal)) : List (String × PVal) :=
  a.filter (fun kv => (plookup b kv.1).isNone) ++ b

/-- A node as persisted in the Neo4j store: its labels and its property map. -/
structure StoredNode where
  labels : List String
  props : List (String × PVal)
deriving DecidableEq, Repr

/-- A relationship as persisted in the store.  `src`/`tgt` are positions in
the store's node list; `scopeText` is the relationship's one property, used
as its merge key by `apoc.merge.relationship`. -/
structure StoredRel where
  src : Nat
  tgt : Nat
  relType : String
  scopeText : PVal
deriving DecidableEq, Repr

/-- The property-graph store. -/
structure Store where
  nodes : List StoredNode
  rels : List StoredRel
deriving DecidableEq, Repr

def emptyStore : Store := ⟨[], []⟩

/-- A node object handed to `create_nodes` (`node.type`, `node.extra_labels`,
`node.attributes` in `_create_nodes_txn`). -/
structure NodeInput where
  type : String
  extra_labels : List String
  attributes : List (String × PVal)

/-- An edge object handed to `create_edges` (`edgeObject.sourceId`,
`edgeObject.targetId`, `edgeObject.type`, `edgeObject.scopeText`). -/
structure EdgeInput where
  sourceId : String
  targetId : String
  type : String
  scopeText : PVal

/-- Label list used by `_create_nodes_txn`:
`node.extra_labels + [node.type, 'NODE']`. -/
def labelsOf (n : NodeInput) : List String :=
  n.extra_labels ++ [n.type, "NODE"]

/-- Identity property map used by `_create_nodes_txn`:
`apoc.map.merge(node.attributes, {repoId: $repoId, entityId: $entityId})`. -/
def identProps (n : NodeInput) (repoId entityId : String) : List (String × PVal) :=
  mergeMap n.attributes [("repoId", PVal.s repoId), ("entityId", PVal.s entityId)]

/-- Cypher `MERGE` match condition for `apoc.merge.node(labels, ident, {}, {})`:
the stored node has every requested label and agrees with the identity map
on every key. -/
def nodeMatches (labels : List String) (ident : List (String × PVal)) (m : StoredNode) : Bool :=
  labels.all (fun l => m.labels.contains l) &&
    ident.all (fun kv => plookup m.props kv.1 == some kv.2)

/-- One `apoc.merge.node(labels, ident, {}, {})` call: if some stored node
matches, the store is unchanged (empty `onCreate`/`onMatch` maps); otherwise
a node with exactly those labels and properties is appended. -/
def mergeNode (st : Store) (labels : List String) (ident : List (String × PVal)) : Store :=
  if st.nodes.any (nodeMatches labels ident) then st
  else { st with nodes := st.nodes ++ [⟨labels, ident⟩] }

/-- Embedding of `_create_nodes_txn` (via `create_nodes`): every node of the
list is merged in order under the manager's `repoId`/`entityId`. -/
def create_nodes (st : Store) (repoId entityId : String) (ns : List NodeInput) : Store :=
  ns.foldl (fun acc n => mergeNode acc (labelsOf n) (identProps n repoId entityId)) st

/-- Embedding of `MATCH (node:NODE {node_id: nid})` from `_create_edges_txn`:
indices of all stored nodes labelled `NODE` whose `node_id` property equals
`nid`, in store order.  No `repoId`/`entityId` condition appears in the
source query. -/
def matchNodeIdx (ns : List StoredNode) (nid : String) : List Nat :=
  (List.range ns.length).filter (fun i =>
    match ns.get? i with
    | some nd => nd.labels.contains "NODE" && plookup nd.props "node_id" == some (PVal.s nid)
    | none => false)

/-- Does the store already hold a relationship with this exact
(source, target, type, scopeText) identity? -/
def relPresent (st : Store) (i j : Nat) (t : String) (sc : PVal) : Bool :=
  st.rels.any (fun r => r == StoredRel.mk i j t sc)

/-- One `apoc.merge.relationship(node1, type, {scopeText: sc}, {}, node2, {})`
call: no-op if the relationship already exists, else append it. -/
def mergeRel (st : Store) (i j : Nat) (t : String) (sc : PVal) : Store :=
  if relPresent st i j t sc then st
  else { st with rels := st.rels ++ [⟨i, j, t, sc⟩] }

/-- The Cartesian product of rows produced by the two `MATCH` clauses of
`_create_edges_txn` for one edge object. -/
def edgePairs (ns : List StoredNode) (e : EdgeInput) : List (Nat × Nat) :=
  (matchNodeIdx ns e.sourceId).flatMap
    (fun i => (matchNodeIdx ns e.targetId).map (fun j => (i, j)))

def foldPairs (t : String) (sc : PVal) (st : Store) (ps : List (Nat × Nat)) : Store :=
  ps.foldl (fun acc ij => mergeRel acc ij.1 ij.2 t sc) st

/-- Processing of one edge object by `_create_edges_txn`: for every pair of
matched endpoint rows, merge the relationship.  When either `MATCH` finds no
node the row set is empty and the edge contributes nothing. -/
def processEdge (st : Store) (e : EdgeInput) : Store :=
  foldPairs e.type e.scopeText st (edgePairs st.nodes e)

/-- Embedding of `_create_edges_txn` (via `create_edges`). -/
def create_edges (st : Store) (es : List EdgeInput) : Store :=
  es.foldl processEdge st

/-- Embedding of `save_graph`: nodes first, then edges. -/
def save_graph (st : Store) (repoId entityId : String)
    (ns : List NodeInput) (es : List EdgeInput) : Store :=
  create_edges (create_nodes st repoId entityId ns) es

/-!  The query escaper `_format_query`. -/

/-- Python `str.replace(old, new)` on character lists: a single left-to-right
scan replacing non-overlapping occurrences; the replacement text is never
rescanned, but later `replace` calls on the result see it again.  Fuel is the
length of the scanned text (each step consumes at least one character, since
the patterns used are non-empty). -/
def pyReplaceAux (pat rep : List Char) : Nat → List Char → List Char
  | 0, s => s
  | _ + 1, [] => []
  | fuel + 1, c :: rest =>
    if pat ≠ [] ∧ pat.isPrefixOf (c :: rest) then
      rep ++ pyReplaceAux pat rep fuel ((c :: rest).drop pat.length)
    else
      c :: pyReplaceAux pat rep fuel rest

/-- Python `s.replace(old, new)` for strings. -/
def pyReplace (s old new : String) : String :=
  ⟨pyReplaceAux old.data new.data s.data.length s.data⟩

/-- The special-character list of `_format_query`, in source order (the
backslash appears near the end, after every single-character marker target). -/
def special_characters : List String :=
  ["+", "-", "&&", "||", "!", "(", ")", "\x7b", "\x7d", "[", "]", "^",
   "\"", "~", "*", "?", ":", "\\", "/"]

/-- Embedding of `Neo4jManager._format_query`: iterated full-string
replacement passes, `query = query.replace(c, "\\" + c)` for each special
character in order. -/
def format_query (query : String) : String :=
  special_characters.foldl (fun q c => pyReplace q c ("\\" ++ c)) query

/-!  Read projections (`node_result.py`) and the read path. -/

/-- Embedding of the `NodeResult` dataclass.  Every field is an `Option`
because the source fills them with `dict.get` / record subscripts, which
yield `None` for an absent or null property regardless of the annotated
type. -/
structure NodeResult where
  node_id : Option PVal
  name : Option PVal
  node_path : Option PVal
  start_line : Option PVal
  end_line : Option PVal
  text : Option PVal
deriving DecidableEq, Repr

/-- Embedding of the `NeighborResult` dataclass. -/
structure NeighborResult where
  node_id : Option PVal
  name : Option PVal
  node_type : List String
  relationship_type : String
deriving DecidableEq, Repr

/-- The `NodeResult` construction shared by `get_node_by_id` and
`search_nodes_by_text`: project the six properties off the store record. -/
def mkNodeResult (n : StoredNode) : NodeResult :=
  ⟨plookup n.props "node_id", plookup n.props "name", plookup n.props "node_path",
   plookup n.props "start_line", plookup n.props "end_line", plookup n.props "text"⟩

/-- Embedding of `get_1_hop_neighbors_and_relations`, parameterised by the
`node_id` value to match (`MATCH (p {node_id: $node_id})-[r]->(p2)`): every
relationship whose source node has that `node_id` property yields one
`NeighborResult` from its target, in store order.  A null parameter
(`none`) matches nothing, as a null property value does in a Cypher
pattern.  No label, `repoId` or `entityId` condition appears in the query. -/
def get_1_hop_val (st : Store) (nid : Option PVal) : List NeighborResult :=
  match nid with
  | none => []
  | some v =>
    st.rels.filterMap (fun r =>
      match st.nodes.get? r.src, st.nodes.get? r.tgt with
      | some p, some p2 =>
        if plookup p.props "node_id" == some v then
          some ⟨plookup p2.props "node_id", plookup p2.props "name", p2.labels, r.relType⟩
        else none
      | _, _ => none)

/-- `get_1_hop_neighbors_and_relations` with a string argument, as called
from `get_node_by_id` with the caller-supplied id. -/
def get_1_hop_neighbors_and_relations (st : Store) (nid : String) : List NeighborResult :=
  get_1_hop_val st (some (PVal.s nid))

/-- Embedding of `get_node_by_id`: `MATCH (n) WHERE n.node_id = $node_id`
over every stored node (no label, `repoId` or `entityId` condition), take
the first record or return `(None, [])`, then expand one hop with the
caller-supplied id. -/
def get_node_by_id (st : Store) (nid : String) :
    Option NodeResult × List NeighborResult :=
  match st.nodes.find? (fun n => plookup n.props "node_id" == some (PVal.s nid)) with
  | none => (none, [])
  | some n => (some (mkNodeResult n), get_1_hop_neighbors_and_relations st nid)

/-- One run of the fulltext search query of `search_nodes_by_text`: the
store-side index (abstracted as a ranked list of node positions for each
query string) followed by the `WHERE node.repoId = $repoId` filter. -/
def runFulltext (st : Store) (index : String → List Nat) (q repoId : String) :
    List StoredNode :=
  ((index q).filterMap (fun i => st.nodes.get? i)).filter
    (fun n => plookup n.props "repoId" == some (PVal.s repoId))

/-- Embedding of `search_nodes_by_text`: escape the query, run the fulltext
search with the escaped text wrapped in `*` wildcards, fall back once to the
unwrapped escaped text when the first run returns no record, return
`(None, [])` when both are empty, and otherwise project the first record and
expand one hop using the record's `node_id` column. -/
def search_nodes_by_text (st : Store) (index : String → List Nat)
    (repoId query : String) : Option NodeResult × List NeighborResult :=
  let formatted := format_query query
  let r1 := runFulltext st index ("*" ++ formatted ++ "*") repoId
  let hits := if r1.isEmpty then runFulltext st index formatted repoId else r1
  match hits with
  | [] => (none, [])
  | n :: _ => (some (mkNodeResult n), get_1_hop_val st (plookup n.props "node_id"))

/-!  Connection establishment (`Neo4jManager.__init__`). -/

/-- Outcome of `__init__`'s connection loop. -/
inductive ConnOutcome where
  | connected
  | raised
deriving DecidableEq, Repr

/-- Observable trace of `__init__`: how many `GraphDatabase.driver` attempts
ran, the `time.sleep` durations in order, whether the `ServiceUnavailable`
was re-raised, and whether `create_indexes_and_constraints()` (which runs
after the loop) was reached. -/
structure ConnTrace where
  attemptsMade : Nat
  sleeps : List Nat
  outcome : ConnOutcome
  provisionedIndexes : Bool
deriving DecidableEq, Repr

/-- The retry loop of `__init__`, parameterised by which attempts fail with
`ServiceUnavailable` (`fails k = true` means attempt `k` raises).  `fuel` is
the number of loop iterations left; the source's `attempt < retries - 1`
test is `fuel ≠ 1` here.  On a failing last attempt the exception is
re-raised, so index provisioning is never reached. -/
def connectGo (fails : Nat → Bool) : Nat → Nat → List Nat → ConnTrace
  | 0, attempt, sleeps => ⟨attempt, sleeps, ConnOutcome.connected, true⟩
  | fuel + 1, attempt, sleeps =>
    if fails attempt then
      if fuel = 0 then ⟨attempt + 1, sleeps, ConnOutcome.raised, false⟩
      else connectGo fails fuel (attempt + 1) (sleeps ++ [2 ^ attempt])
    else ⟨attempt + 1, sleeps, ConnOutcome.connected, true⟩

/-- Embedding of `__init__`'s connection phase with the source's
`retries = 3`. -/
def neo4j_connect (fails : Nat → Bool) : ConnTrace :=
  connectGo fails 3 0 []

/-!  The tool wrapper (`GraphQueryTool`). -/

/-- Python truthiness of the pair returned by the manager's
`get_node_by_id`: `bool((a, b))` is `len((a, b)) != 0`, and a 2-tuple always
has length 2, so the pair is truthy whatever it holds. -/
def pyTruthyPair (_p : Option NodeResult × List NeighborResult) : Bool :=
  true

/-- Python truthiness of the `code` component unpacked by the wrapper's
`search_nodes_by_text`: `None` is falsy, a `NodeResult` dataclass instance
(no `__bool__`/`__len__`) is always truthy. -/
def pyTruthyCode (code : Option NodeResult) : Bool :=
  code.isSome

/-- A value returned by a wrapper method: either a rendered string or the
manager's raw result pair (Python lets both escape the same function). -/
inductive ToolOutput where
  | text (s : String)
  | pair (p : Option NodeResult × List NeighborResult)
deriving DecidableEq, Repr

/-- Python `str` of an optional property value inside an f-string: `None`
renders as the word `None`, a string renders as itself, an integer via
`str`. -/
def pyStrOpt : Option PVal → String
  | none => "None"
  | some (PVal.s v) => v
  | some (PVal.i v) => toString v

/-- Python `repr` of an optional property value inside a dataclass repr
(string values quoted; quote-escaping inside values is not needed by any
claim and is not modelled). -/
def pyReprOpt : Option PVal → String
  | none => "None"
  | some (PVal.s v) => "'" ++ v ++ "'"
  | some (PVal.i v) => toString v

/-- Python `repr` of a label list. -/
def pyReprLabels (ls : List String) : String :=
  "[" ++ String.intercalate ", " (ls.map (fun l => "'" ++ l ++ "'")) ++ "]"

/-- Python dataclass `repr` of a `NeighborResult`. -/
def neighborRepr (nr : NeighborResult) : String :=
  "NeighborResult(node_id=" ++ pyReprOpt nr.node_id ++ ", name=" ++ pyReprOpt nr.name ++
    ", node_type=" ++ pyReprLabels nr.node_type ++ ", relationship_type='" ++
    nr.relationship_type ++ "')"

/-- Python `repr` of the neighbour list, as an f-string renders it. -/
def neighborsRepr (ns : List NeighborResult) : String :=
  "[" ++ String.intercalate ", " (ns.map neighborRepr) ++ "]"

/-- Embedding of `GraphQueryTool.get_node_by_id`: the guard is
`if not result:` on the manager's result PAIR, followed by the ternary
`result if result else "No result found"`; both test the truthiness of the
2-tuple. -/
def tool_get_node_by_id (st : Store) (query : String) : ToolOutput :=
  let result := get_node_by_id st query
  if pyTruthyPair result = false then
    ToolOutput.text "No code found for the given query"
  else if pyTruthyPair result then
    ToolOutput.pair result
  else
    ToolOutput.text "No result found"

/-- Embedding of `GraphQueryTool.search_nodes_by_text`: unpack the pair,
return the sentinel when `code` is falsy, else render the f-string
`current node code:\n {code.text} \n\n current node neighbours: {neighbours}`. -/
def tool_search_nodes_by_text (st : Store) (index : String → List Nat)
    (repoId query : String) : ToolOutput :=
  let cn := search_nodes_by_text st index repoId query
  if pyTruthyCode cn.1 = false then
    ToolOutput.text "No code found for the given query"
  else
    match cn.1 with
    | none => ToolOutput.text "No code found for the given query"
    | some code =>
      ToolOutput.text ("current node code:\n " ++ pyStrOpt code.text ++
        " \n\n current node neighbours: " ++ neighborsRepr cn.2)

/-!  Shared lemmas about property maps. -/

theorem plookup_eq_none_iff (ps : List (String × PVal)) (k : String) :
    plookup ps k = none ↔ ∀ kv ∈ ps, kv.1 ≠ k := by
  simp only [plookup, Option.map_eq_none', List.find?_eq_none, decide_eq_true_eq]

theorem plookup_self (I : List (String × PVal)) (h : (I.map Prod.fst).Nodup) :
    ∀ kv ∈ I, plookup I kv.1 = some kv.2 := by
  induction I with
  | nil => intro kv hkv; cases hkv
  | cons hd tl ih =>
    rw [List.map_cons, List.nodup_cons] at h
    intro kv hkv
    rcases List.mem_cons.1 hkv with heq | htl
    · subst heq
      simp only [plookup]
      rw [List.find?_cons_of_pos _ (by simp)]
      rfl
    · have hne : hd.1 ≠ kv.1 := fun hc => h.1 (hc ▸ List.mem_map.2 ⟨kv, htl, rfl⟩)
      have htail := ih h.2 kv htl
      simp only [plookup] at htail ⊢
      rw [List.find?_cons_of_neg _ (by simp [hne])]
      exact htail

theorem mergeMap_keys_nodup (a b : List (String × PVal))
    (ha : (a.map Prod.fst).Nodup) (hb : (b.map Prod.fst).Nodup) :
    ((mergeMap a b).map Prod.fst).Nodup := by
  unfold mergeMap
  rw [List.map_append]
  refine List.Nodup.append ?_ hb ?_
  · exact ((List.filter_sublist a).map Prod.fst).nodup ha
  · intro k hk1 hk2
    rcases List.mem_map.1 hk1 with ⟨kv, hmem, hkeq⟩
    rcases List.mem_filter.1 hmem with ⟨_, hp⟩
    have hnone : plookup b kv.1 = none := Option.isNone_iff_eq_none.1 hp
    rcases List.mem_map.1 hk2 with ⟨kv2, hmem2, hkeq2⟩
    exact (plookup_eq_none_iff b kv.1).1 hnone kv2 hmem2 (by rw [hkeq2, hkeq])

theorem identProps_keys_nodup (n : NodeInput) (r e : String)
    (h : (n.attributes.map Prod.fst).Nodup) :
    ((identProps n r e).map Prod.fst).Nodup := by
  exact mergeMap_keys_nodup _ _ h (by simp)

/-!  Lemmas about the node merge path. -/

theorem nodeMatches_self (L : List String) (I : List (String × PVal))
    (h : (I.map Prod.fst).Nodup) : nodeMatches L I ⟨L, I⟩ = true := by
  unfold nodeMatches
  rw [Bool.and_eq_true]
  constructor
  · rw [List.all_eq_true]
    intro l hl
    exact List.elem_iff.2 hl
  · rw [List.all_eq_true]
    intro kv hkv
    rw [beq_iff_eq]
    exact plookup_self I h kv hkv

theorem mergeNode_self_noop (st : Store) (L : List String) (I : List (String × PVal))
    (hself : nodeMatches L I ⟨L, I⟩ = true) :
    mergeNode (mergeNode st L I) L I = mergeNode st L I := by
  by_cases hc : st.nodes.any (nodeMatches L I) = true
  · simp [mergeNode, hc]
  · have h1 : mergeNode st L I = { st with nodes := st.nodes ++ [⟨L, I⟩] } := by
      simp [mergeNode, hc]
    rw [h1]
    have h2 : (st.nodes ++ [(⟨L, I⟩ : StoredNode)]).any (nodeMatches L I) = true := by
      rw [List.any_append]
      simp [hself]
    simp [mergeNode, h2]

theorem create_nodes_nil (st : Store) (r e : String) : create_nodes st r e [] = st := rfl

theorem create_nodes_single (st : Store) (r e : String) (n : NodeInput) :
    create_nodes st r e [n] = mergeNode st (labelsOf n) (identProps n r e) := rfl

/-!  Lemmas about the edge merge path. -/

theorem mergeRel_nodes (st : Store) (i j : Nat) (t : String) (sc : PVal) :
    (mergeRel st i j t sc).nodes = st.nodes := by
  unfold mergeRel
  by_cases h : relPresent st i j t sc = true <;> simp [h]

theorem foldPairs_nodes (t : String) (sc : PVal) (ps : List (Nat × Nat)) :
    ∀ st : Store, (foldPairs t sc st ps).nodes = st.nodes := by
  induction ps with
  | nil => intro st; rfl
  | cons hd tl ih =>
    intro st
    show (foldPairs t sc (mergeRel st hd.1 hd.2 t sc) tl).nodes = st.nodes
    rw [ih, mergeRel_nodes]

theorem processEdge_nodes (st : Store) (e : EdgeInput) :
    (processEdge st e).nodes = st.nodes := foldPairs_nodes _ _ _ _

theorem create_edges_nodes (es : List EdgeInput) :
    ∀ st : Store, (create_edges st es).nodes = st.nodes := by
  induction es with
  | nil => intro st; rfl
  | cons hd tl ih =>
    intro st
    show (create_edges (processEdge st hd) tl).nodes = st.nodes
    rw [ih, processEdge_nodes]

theorem relPresent_mergeRel_of_present (st : Store) (a b i j : Nat) (t' t : String)
    (sc' sc : PVal) (h : relPresent st i j t sc = true) :
    relPresent (mergeRel st a b t' sc') i j t sc = true := by
  unfold mergeRel
  by_cases hc : relPresent st a b t' sc' = true
  · rw [if_pos hc]; exact h
  · rw [if_neg hc]
    unfold relPresent at h ⊢
    simp [List.any_append, h]

theorem relPresent_mergeRel_self (st : Store) (i j : Nat) (t : String) (sc : PVal) :
    relPresent (mergeRel st i j t sc) i j t sc = true := by
  unfold mergeRel
  by_cases hc : relPresent st i j t sc = true
  · rw [if_pos hc]; exact hc
  · rw [if_neg hc]
    unfold relPresent
    simp [List.any_append]

theorem foldPairs_present_mono (t' : String) (sc' : PVal) (ps : List (Nat × Nat)) :
    ∀ (st : Store) (i j : Nat) (t : String) (sc : PVal),
      relPresent st i j t sc = true → relPresent (foldPairs t' sc' st ps) i j t sc = true := by
  induction ps with
  | nil => intro st i j t sc h; exact h
  | cons hd tl ih =>
    intro st i j t sc h
    show relPresent (foldPairs t' sc' (mergeRel st hd.1 hd.2 t' sc') tl) i j t sc = true
    exact ih _ i j t sc (relPresent_mergeRel_of_present st hd.1 hd.2 i j t' t sc' sc h)

theorem foldPairs_all_present (t : String) (sc : PVal) (ps : List (Nat × Nat)) :
    ∀ st : Store, ∀ p ∈ ps, relPresent (foldPairs t sc st ps) p.1 p.2 t sc = true := by
  induction ps with
  | nil => intro st p hp; cases hp
  | cons hd tl ih =>
    intro st p hp
    rcases List.mem_cons.1 hp with heq | htl
    · subst heq
      show relPresent (foldPairs t sc (mergeRel st p.1 p.2 t sc) tl) p.1 p.2 t sc = true
      exact foldPairs_present_mono t sc tl _ p.1 p.2 t sc (relPresent_mergeRel_self st p.1 p.2 t sc)
    · exact ih _ p htl

theorem foldPairs_noop (t : String) (sc : PVal) (ps : List (Nat × Nat)) :
    ∀ st : Store, (∀ p ∈ ps, relPresent st p.1 p.2 t sc = true) → foldPairs t sc st ps = st := by
  induction ps with
  | nil => intro st _; rfl
  | cons hd tl ih =>
    intro st h
    have hhd : relPresent st hd.1 hd.2 t sc = true := h hd (List.mem_cons_self hd tl)
    show foldPairs t sc (mergeRel st hd.1 hd.2 t sc) tl = st
    rw [show mergeRel st hd.1 hd.2 t sc = st by simp [mergeRel, hhd]]
    exact ih st (fun p hp => h p (List.mem_cons_of_mem hd hp))

theorem processEdge_idem (st : Store) (e : EdgeInput) :
    processEdge (processEdge st e) e = processEdge st e := by
  have hn : (processEdge st e).nodes = st.nodes := processEdge_nodes st e
  show foldPairs e.type e.scopeText (processEdge st e) (edgePairs (processEdge st e).nodes e) =
    processEdge st e
  rw [hn]
  exact foldPairs_noop e.type e.scopeText (edgePairs st.nodes e) (processEdge st e)
    (fun p hp => foldPairs_all_present e.type e.scopeText (edgePairs st.nodes e) st p hp)

theorem create_edges_nil (st : Store) : create_edges st [] = st := rfl

theorem create_edges_single (st : Store) (e : EdgeInput) :
    create_edges st [e] = processEdge st e := rfl

/-!  Lemmas for skipped edges and partition scoping. -/

theorem edgePairs_empty_left (ns : List StoredNode) (e : EdgeInput)
    (h : matchNodeIdx ns e.sourceId = []) : edgePairs ns e = [] := by
  unfold edgePairs
  rw [h]
  rfl

theorem edgePairs_empty_right (ns : List StoredNode) (e : EdgeInput)
    (h : matchNodeIdx ns e.targetId = []) : edgePairs ns e = [] := by
  unfold edgePairs
  rw [h]
  simp

theorem processEdge_skip (st : Store) (e : EdgeInput)
    (h : edgePairs st.nodes e = []) : processEdge st e = st := by
  unfold processEdge
  rw [h]
  rfl

theorem plookup_append (l₁ l₂ : List (String × PVal)) (k : String) :
    plookup (l₁ ++ l₂) k = (plookup l₁ k).or (plookup l₂ k) := by
  unfold plookup
  rw [List.find?_append]
  cases List.find? (fun kv => decide (kv.1 = k)) l₁ <;> simp

theorem plookup_filter_none (a b : List (String × PVal)) (k : String) (v : PVal)
    (h : plookup b k = some v) :
    plookup (a.filter (fun kv => (plookup b kv.1).isNone)) k = none := by
  rw [plookup_eq_none_iff]
  intro kv hkv hk
  rcases List.mem_filter.1 hkv with ⟨_, hp⟩
  have hnone : plookup b kv.1 = none := Option.isNone_iff_eq_none.1 hp
  rw [hk] at hnone
  rw [hnone] at h
  cases h

theorem plookup_mergeMap_right (a b : List (String × PVal)) (k : String) (v : PVal)
    (h : plookup b k = some v) : plookup (mergeMap a b) k = some v := by
  unfold mergeMap
  rw [plookup_append, plookup_filter_none a b k v h]
  simp [h]

theorem plookup_identProps_repoId (n : NodeInput) (r e : String) :
    plookup (identProps n r e) "repoId" = some (PVal.s r) := by
  apply plookup_mergeMap_right
  simp [plookup, List.find?]

theorem plookup_identProps_entityId (n : NodeInput) (r e : String) :
    plookup (identProps n r e) "entityId" = some (PVal.s e) := by
  apply plookup_mergeMap_right
  simp [plookup, List.find?]

theorem repoId_mem_identProps (n : NodeInput) (r e : String) :
    ("repoId", PVal.s r) ∈ identProps n r e := by
  unfold identProps mergeMap
  exact List.mem_append_right _ (by simp)

theorem nodeMatches_false_of_other_repo (n : NodeInput) (r e : String) (m : StoredNode)
    (hm : plookup m.props "repoId" ≠ some (PVal.s r)) :
    nodeMatches (labelsOf n) (identProps n r e) m = false := by
  by_contra hcontra
  rw [Bool.not_eq_false] at hcontra
  unfold nodeMatches at hcontra
  rw [Bool.and_eq_true] at hcontra
  have := List.all_eq_true.1 hcontra.2 ("repoId", PVal.s r) (repoId_mem_identProps n r e)
  exact hm (beq_iff_eq.1 this)

theorem mem_matchNodeIdx_iff (ns : List StoredNode) (nid : String) (i : Nat) :
    i ∈ matchNodeIdx ns nid ↔
      ∃ nd, ns.get? i = some nd ∧ nd.labels.contains "NODE" = true ∧
        plookup nd.props "node_id" = some (PVal.s nid) := by
  unfold matchNodeIdx
  rw [List.mem_filter, List.mem_range]
  constructor
  · rintro ⟨hlt, hpred⟩
    cases hget : ns.get? i with
    | none => rw [hget] at hpred; cases hpred
    | some nd =>
      rw [hget] at hpred
      rw [Bool.and_eq_true] at hpred
      exact ⟨nd, rfl, hpred.1, beq_iff_eq.1 hpred.2⟩
  · rintro ⟨nd, hget, hlabel, hid⟩
    have hlt : i < ns.length := (List.get?_eq_some.1 hget).1
    refine ⟨hlt, ?_⟩
    rw [hget]
    rw [Bool.and_eq_true]
    exact ⟨hlabel, beq_iff_eq.2 hid⟩

/-!  Characterization of the connection loop. -/

theorem neo4j_connect_cases (fails : Nat → Bool) :
    neo4j_connect fails =
      if fails 0 then
        if fails 1 then
          if fails 2 then ⟨3, [1, 2], ConnOutcome.raised, false⟩
          else ⟨3, [1, 2], ConnOutcome.connected, true⟩
        else ⟨2, [1], ConnOutcome.connected, true⟩
      else ⟨1, [], ConnOutcome.connected, true⟩ := by
  simp only [neo4j_connect, connectGo]
  cases h0 : fails 0 <;> cases h1 : fails 1 <;> cases h2 : fails 2 <;> simp [h0, h1, h2]

/-!  Concrete fixtures used by counterexamples and witnesses. -/

def fxNode1 : NodeInput := ⟨"FILE", [], [("node_id", PVal.s "n1"), ("name", PVal.s "alpha")]⟩

def fxNode2 : NodeInput := ⟨"FILE", [], [("node_id", PVal.s "n1"), ("name", PVal.s "beta")]⟩

def fxStoredA : StoredNode :=
  ⟨["NODE"], [("node_id", PVal.s "n1"), ("repoId", PVal.s "r1"), ("entityId", PVal.s "e1")]⟩

def fxStoredB : StoredNode :=
  ⟨["NODE"], [("node_id", PVal.s "n2"), ("repoId", PVal.s "r2"), ("entityId", PVal.s "e2")]⟩

def fxStoreAB : Store := ⟨[fxStoredA, fxStoredB], []⟩

def fxEdge : EdgeInput := ⟨"n1", "n2", "CALLS", PVal.s "x"⟩

def fxEdgeMissing : EdgeInput := ⟨"n1", "nX", "CALLS", PVal.s "x"⟩

def fxSearchNode : StoredNode := ⟨["NODE"], [("node_id", PVal.s "n1"), ("repoId", PVal.s "r")]⟩

def fxSearchStore : Store := ⟨[fxSearchNode], []⟩

def failsFirstTwo : Nat → Bool := fun k => k < 2

/-!  Claim theorems. -/

/-- Claim C1: the claim says `escape("a+b*c")` is exactly `a\+b\*c` with one
marker per special character and no double-escaping.  The code instead runs
one `str.replace` pass per special character, and the late backslash pass
re-escapes the markers the `+` and `*` passes inserted, so the actual output
doubles every marker: `a\\+b\\*c`. -/
theorem format_query_double_escapes_markers :
    format_query "a+b*c" = "a\\\\+b\\\\*c" ∧ format_query "a+b*c" ≠ "a\\+b\\*c" := by
  decide

/-- Claim C2, counterexample: re-ingesting the node `n1` with the same
labels and `node_id` but a changed `name` does NOT overwrite in place — the
store ends with two nodes, and the first node still carries the original
attribute value. -/
theorem reingest_changed_attributes_creates_second_node_cex :
    (save_graph (save_graph emptyStore "r" "e" [fxNode1] []) "r" "e" [fxNode2] []).nodes.length = 2 ∧
    ((save_graph (save_graph emptyStore "r" "e" [fxNode1] []) "r" "e" [fxNode2]
        []).nodes.get? 0).map (fun nd => plookup nd.props "name") =
      some (some (PVal.s "alpha")) := by
  decide

/-- The store produced by ingesting `fxNode1` into the empty store under
partition `(r, e)`. -/
def fxStoreN1 : Store := ⟨[⟨labelsOf fxNode1, identProps fxNode1 "r" "e"⟩], []⟩

/-- A re-ingest of `n1` whose attribute map is a strict submap of the
stored properties (the `name` key dropped). -/
def fxNode1Sub : NodeInput := ⟨"FILE", [], [("node_id", PVal.s "n1")]⟩

theorem mergeNode_preserves_get (st : Store) (L : List String) (I : List (String × PVal))
    (k : Nat) (m : StoredNode) (hk : st.nodes.get? k = some m) :
    (mergeNode st L I).nodes.get? k = some m := by
  unfold mergeNode
  by_cases hc : st.nodes.any (nodeMatches L I) = true
  · rw [if_pos hc]; exact hk
  · rw [if_neg hc]
    have hlt : k < st.nodes.length := (List.get?_eq_some.1 hk).1
    show (st.nodes ++ [(⟨L, I⟩ : StoredNode)]).get? k = some m
    rw [List.get?_eq_getElem?, List.getElem?_append_left hlt, ← List.get?_eq_getElem?]
    exact hk

theorem create_nodes_preserves_get (r e : String) (ns : List NodeInput) :
    ∀ (st : Store) (k : Nat) (m : StoredNode), st.nodes.get? k = some m →
      (create_nodes st r e ns).nodes.get? k = some m := by
  induction ns with
  | nil => intro st k m hk; exact hk
  | cons hd tl ih =>
    intro st k m hk
    show (create_nodes (mergeNode st (labelsOf hd) (identProps hd r e)) r e
      tl).nodes.get? k = some m
    exact ih _ k m (mergeNode_preserves_get st (labelsOf hd) (identProps hd r e) k m hk)

/-- Claim C2, amended: re-ingesting a node with the same identity (labels
and `node_id`) but a changed attribute map never overwrites the stored
node's attributes — a node write leaves every already-stored node
byte-identical, because the `onMatch` map of `apoc.merge.node` is empty.
The merge is keyed on the labels plus the full merged attribute map: when
that identity still matches some stored node (for instance a submap of its
properties) the write is a no-op, and when it matches no stored node (for
instance a changed attribute value, as in the counterexample) a second node
carrying the new attributes is appended. -/
theorem reingest_changed_attributes_appends_or_noop (st : Store) (r e : String)
    (n' : NodeInput) (k : Nat) (m : StoredNode)
    (hk : st.nodes.get? k = some m) :
    (∀ ns : List NodeInput, (save_graph st r e ns []).nodes.get? k = some m) ∧
    (st.nodes.any (nodeMatches (labelsOf n') (identProps n' r e)) = true →
      save_graph st r e [n'] [] = st) ∧
    (st.nodes.any (nodeMatches (labelsOf n') (identProps n' r e)) = false →
      (save_graph st r e [n'] []).nodes =
        st.nodes ++ [⟨labelsOf n', identProps n' r e⟩]) := by
  refine ⟨?_, ?_, ?_⟩
  · intro ns
    exact create_nodes_preserves_get r e ns st k m hk
  · intro hmatch
    show create_nodes st r e [n'] = st
    rw [create_nodes_single]
    simp [mergeNode, hmatch]
  · intro hmiss
    show (create_nodes st r e [n']).nodes = _
    rw [create_nodes_single]
    simp [mergeNode, hmiss]

/-- Witness for the amended Claim C2: re-ingesting `n1` with a changed
`name` into the two-node store leaves the stored node untouched and appends
a second node, while re-ingesting a submap of `n1`'s stored properties is a
no-op. -/
theorem reingest_changed_attributes_appends_or_noop_witness :
    (save_graph fxStoreAB "r" "e" [fxNode2] []).nodes.get? 0 = some fxStoredA ∧
    (save_graph fxStoreAB "r" "e" [fxNode2] []).nodes =
      fxStoreAB.nodes ++ [⟨labelsOf fxNode2, identProps fxNode2 "r" "e"⟩] ∧
    save_graph fxStoreN1 "r" "e" [fxNode1Sub] [] = fxStoreN1 :=
  ⟨(reingest_changed_attributes_appends_or_noop fxStoreAB "r" "e" fxNode2 0 fxStoredA
      (by decide)).1 [fxNode2],
   (reingest_changed_attributes_appends_or_noop fxStoreAB "r" "e" fxNode2 0 fxStoredA
      (by decide)).2.2 (by decide),
   (reingest_changed_attributes_appends_or_noop fxStoreN1 "r" "e" fxNode1Sub 0
      ⟨labelsOf fxNode1, identProps fxNode1 "r" "e"⟩ (by decide)).2.1 (by decide)⟩

/-- Claim C3: `search_nodes_by_text` returns `(None, [])` exactly when both
the wildcarded and the unwrapped fulltext attempts (each scoped to the
manager's `repoId`) return no record; when the wildcarded attempt has a
first record it is returned together with its one-hop expansion, and when
only the unwrapped retry has a first record that one is returned with its
one-hop expansion. -/
theorem search_by_text_fallback (st : Store) (index : String → List Nat) (repoId q : String) :
    (search_nodes_by_text st index repoId q = (none, []) ↔
      runFulltext st index ("*" ++ format_query q ++ "*") repoId = [] ∧
      runFulltext st index (format_query q) repoId = []) ∧
    (∀ n t, runFulltext st index ("*" ++ format_query q ++ "*") repoId = n :: t →
      search_nodes_by_text st index repoId q =
        (some (mkNodeResult n), get_1_hop_val st (plookup n.props "node_id"))) ∧
    (∀ n t, runFulltext st index ("*" ++ format_query q ++ "*") repoId = [] →
      runFulltext st index (format_query q) repoId = n :: t →
      search_nodes_by_text st index repoId q =
        (some (mkNodeResult n), get_1_hop_val st (plookup n.props "node_id"))) := by
  cases h1 : runFulltext st index ("*" ++ format_query q ++ "*") repoId with
  | nil =>
    cases h2 : runFulltext st index (format_query q) repoId with
    | nil =>
      refine ⟨by simp [search_nodes_by_text, h1, h2], ?_, ?_⟩
      · intro n t h; exact absurd h.symm (List.cons_ne_nil n t)
      · intro n t _ h; exact absurd h.symm (List.cons_ne_nil n t)
    | cons m ms =>
      refine ⟨by simp [search_nodes_by_text, h1, h2], ?_, ?_⟩
      · intro n t h; exact absurd h.symm (List.cons_ne_nil n t)
      · intro n t _ h
        injection h with hn _
        subst hn
        simp [search_nodes_by_text, h1, h2]
  | cons m ms =>
    refine ⟨by simp [search_nodes_by_text, h1], ?_, ?_⟩
    · intro n t h
      injection h with hn _
      subst hn
      simp [search_nodes_by_text, h1]
    · intro n t habs
      exact absurd habs (List.cons_ne_nil m ms)

/-- Witness for Claim C3 at a concrete store whose single node is hit by the
wildcarded attempt. -/
theorem search_by_text_fallback_witness :
    search_nodes_by_text fxSearchStore (fun _ => [0]) "r" "q" =
      (some (mkNodeResult fxSearchNode), get_1_hop_val fxSearchStore (some (PVal.s "n1"))) :=
  (search_by_text_fallback fxSearchStore (fun _ => [0]) "r" "q").2.1 fxSearchNode []
    (by decide)

/-- Claim C4: bulk ingest is idempotent.  Writing one node twice from the
empty store leaves exactly one node; for any store, repeating a one-node
`save_graph` or a one-edge `save_graph` is a no-op on the whole store (the
second merge matches the first and writes nothing). -/
theorem write_graph_idempotent (st : Store) (r e : String) (n : NodeInput) (ed : EdgeInput)
    (hkeys : (n.attributes.map Prod.fst).Nodup) :
    (save_graph (save_graph emptyStore r e [n] []) r e [n] []).nodes.length = 1 ∧
    save_graph (save_graph st r e [n] []) r e [n] [] = save_graph st r e [n] [] ∧
    save_graph (save_graph st r e [] [ed]) r e [] [ed] = save_graph st r e [] [ed] := by
  have hself := nodeMatches_self (labelsOf n) (identProps n r e)
    (identProps_keys_nodup n r e hkeys)
  have hnode : ∀ s : Store,
      save_graph (save_graph s r e [n] []) r e [n] [] = save_graph s r e [n] [] := by
    intro s
    show create_nodes (create_nodes s r e [n]) r e [n] = create_nodes s r e [n]
    rw [create_nodes_single, create_nodes_single]
    exact mergeNode_self_noop s _ _ hself
  refine ⟨?_, hnode st, ?_⟩
  · rw [hnode emptyStore]
    show (mergeNode emptyStore (labelsOf n) (identProps n r e)).nodes.length = 1
    simp [mergeNode, emptyStore]
  · show create_edges (create_edges st [ed]) [ed] = create_edges st [ed]
    rw [create_edges_single, create_edges_single]
    exact processEdge_idem st ed

/-- Witness for Claim C4 at the concrete fixture node, edge and store. -/
theorem write_graph_idempotent_witness :
    (save_graph (save_graph emptyStore "r" "e" [fxNode1] []) "r" "e" [fxNode1]
      []).nodes.length = 1 ∧
    save_graph (save_graph fxStoreAB "r" "e" [fxNode1] []) "r" "e" [fxNode1] [] =
      save_graph fxStoreAB "r" "e" [fxNode1] [] ∧
    save_graph (save_graph fxStoreAB "r" "e" [] [fxEdge]) "r" "e" [] [fxEdge] =
      save_graph fxStoreAB "r" "e" [] [fxEdge] :=
  write_graph_idempotent fxStoreAB "r" "e" fxNode1 fxEdge (by decide)

/-- Claim C5, counterexample: the manager writes under partition
`(r1, e1)`, yet the edge from `n1` attaches to the stored node `n2` that
belongs to partition `(r2, e2)` — the edge query matches endpoints by
`node_id` alone, so edge writes are NOT confined to the caller's
partition. -/
theorem edge_write_cross_partition_cex :
    (save_graph fxStoreAB "r1" "e1" [] [fxEdge]).rels =
      [⟨0, 1, "CALLS", PVal.s "x"⟩] ∧
    plookup fxStoredB.props "repoId" = some (PVal.s "r2") ∧
    plookup fxStoredB.props "entityId" = some (PVal.s "e2") := by
  decide

/-- Claim C5, amended: node writes are partition-confined — every merged
node identity carries the manager's `repoId` and `entityId`, and a stored
node whose `repoId` differs is never the merge target — but edge endpoint
matching depends only on the `NODE` label and `node_id`, with no partition
condition, so an edge write may attach to a node of another partition. -/
theorem partition_scoping_nodes_only (st : Store) (n : NodeInput) (r e nid : String)
    (m : StoredNode) (i : Nat)
    (hm : plookup m.props "repoId" ≠ some (PVal.s r)) :
    plookup (identProps n r e) "repoId" = some (PVal.s r) ∧
    plookup (identProps n r e) "entityId" = some (PVal.s e) ∧
    nodeMatches (labelsOf n) (identProps n r e) m = false ∧
    (i ∈ matchNodeIdx st.nodes nid ↔
      ∃ nd, st.nodes.get? i = some nd ∧ nd.labels.contains "NODE" = true ∧
        plookup nd.props "node_id" = some (PVal.s nid)) :=
  ⟨plookup_identProps_repoId n r e, plookup_identProps_entityId n r e,
   nodeMatches_false_of_other_repo n r e m hm, mem_matchNodeIdx_iff st.nodes nid i⟩

/-- Witness for the amended Claim C5 at the concrete fixtures. -/
theorem partition_scoping_nodes_only_witness :
    plookup (identProps fxNode1 "r1" "e1") "repoId" = some (PVal.s "r1") ∧
    plookup (identProps fxNode1 "r1" "e1") "entityId" = some (PVal.s "e1") ∧
    nodeMatches (labelsOf fxNode1) (identProps fxNode1 "r1" "e1") fxStoredB = false ∧
    (0 ∈ matchNodeIdx fxStoreAB.nodes "n1" ↔
      ∃ nd, fxStoreAB.nodes.get? 0 = some nd ∧ nd.labels.contains "NODE" = true ∧
        plookup nd.props "node_id" = some (PVal.s "n1")) :=
  partition_scoping_nodes_only fxStoreAB fxNode1 "r1" "e1" "n1" fxStoredB 0 (by decide)

theorem create_edges_append (st : Store) (l₁ l₂ : List EdgeInput) :
    create_edges st (l₁ ++ l₂) = create_edges (create_edges st l₁) l₂ := by
  unfold create_edges
  rw [List.foldl_append]

/-- Claim C6: an edge whose source or target `node_id` matches no stored
node creates zero relationships and leaves the rest of the batch exactly as
it would be without that edge — the other edges of the same call are
processed unchanged, and no error is modelled because the `MATCH` clauses
simply produce no rows. -/
theorem missing_endpoint_edge_skipped (st : Store) (pre post : List EdgeInput)
    (ed : EdgeInput)
    (h : matchNodeIdx st.nodes ed.sourceId = [] ∨ matchNodeIdx st.nodes ed.targetId = []) :
    create_edges st (pre ++ ed :: post) = create_edges st (pre ++ post) := by
  have key : ∀ s' : Store, s'.nodes = st.nodes →
      create_edges s' (ed :: post) = create_edges s' post := by
    intro s' hs'
    have hp : processEdge s' ed = s' := by
      apply processEdge_skip
      rw [hs']
      rcases h with hsrc | htgt
      · exact edgePairs_empty_left st.nodes ed hsrc
      · exact edgePairs_empty_right st.nodes ed htgt
    show create_edges (processEdge s' ed) post = create_edges s' post
    rw [hp]
  rw [create_edges_append, create_edges_append]
  exact key (create_edges st pre) (create_edges_nodes pre st)

/-- Witness for Claim C6: an edge whose target `nX` is absent is skipped
while its sibling edge is still applied. -/
theorem missing_endpoint_edge_skipped_witness :
    create_edges fxStoreAB ([] ++ fxEdgeMissing :: [fxEdge]) =
      create_edges fxStoreAB ([] ++ [fxEdge]) :=
  missing_endpoint_edge_skipped fxStoreAB [] [fxEdge] fxEdgeMissing (Or.inr (by decide))

/-- Claim C7: the connection loop makes at most 3 driver attempts; it
re-raises the `ServiceUnavailable` exactly when all three attempts fail (in
which case index provisioning is never reached); after each failed attempt
except the last it sleeps `2 ** attempt` seconds, so the sleeps are the
doubling sequence `1, 2` truncated to the failures that preceded the final
attempt; and the loop stops at the first successful attempt, after which
the indexes are provisioned. -/
theorem connect_retry_bounded_backoff (fails : Nat → Bool) :
    (neo4j_connect fails).attemptsMade ≤ 3 ∧
    ((neo4j_connect fails).outcome = ConnOutcome.raised ↔
      fails 0 = true ∧ fails 1 = true ∧ fails 2 = true) ∧
    ((neo4j_connect fails).outcome = ConnOutcome.connected →
      (neo4j_connect fails).provisionedIndexes = true) ∧
    ((neo4j_connect fails).outcome = ConnOutcome.raised →
      (neo4j_connect fails).provisionedIndexes = false) ∧
    (neo4j_connect fails).sleeps =
      (List.range ((neo4j_connect fails).attemptsMade - 1)).map (fun k => 2 ^ k) ∧
    (fails 0 = false →
      (neo4j_connect fails).attemptsMade = 1 ∧
        (neo4j_connect fails).outcome = ConnOutcome.connected) ∧
    (fails 0 = true → fails 1 = false →
      (neo4j_connect fails).attemptsMade = 2 ∧
        (neo4j_connect fails).outcome = ConnOutcome.connected) ∧
    (fails 0 = true → fails 1 = true → fails 2 = false →
      (neo4j_connect fails).attemptsMade = 3 ∧
        (neo4j_connect fails).outcome = ConnOutcome.connected) := by
  rw [neo4j_connect_cases fails]
  cases h0 : fails 0 <;> cases h1 : fails 1 <;> cases h2 : fails 2 <;>
    simp [h0, h1, h2] <;> decide

/-- Witness for Claim C7 with the first two attempts failing: three
attempts, success on the third, sleeps 1 then 2. -/
theorem connect_retry_bounded_backoff_witness :
    (neo4j_connect failsFirstTwo).attemptsMade = 3 ∧
    (neo4j_connect failsFirstTwo).outcome = ConnOutcome.connected ∧
    (neo4j_connect failsFirstTwo).sleeps = [1, 2] := by
  have h := connect_retry_bounded_backoff failsFirstTwo
  have h3 := h.2.2.2.2.2.2.2 (by decide) (by decide) (by decide)
  refine ⟨h3.1, h3.2, ?_⟩
  rw [h.2.2.2.2.1, h3.1]
  decide

/-- Claim C8: when no stored node's `node_id` equals the argument,
`get_node_by_id` returns the empty result pair.  The embedding is a total
function — the miss is an ordinary return value, not an exception. -/
theorem get_node_by_id_miss_returns_empty (st : Store) (nid : String)
    (h : ∀ nd ∈ st.nodes, plookup nd.props "node_id" ≠ some (PVal.s nid)) :
    get_node_by_id st nid = (none, []) := by
  have hfind : st.nodes.find?
      (fun nd => plookup nd.props "node_id" == some (PVal.s nid)) = none :=
    List.find?_eq_none.2 (fun nd hnd hc => h nd hnd (beq_iff_eq.1 hc))
  unfold get_node_by_id
  rw [hfind]

/-- Witness for Claim C8: a lookup for the absent id `nX` in the two-node
store. -/
theorem get_node_by_id_miss_returns_empty_witness :
    get_node_by_id fxStoreAB "nX" = (none, []) :=
  get_node_by_id_miss_returns_empty fxStoreAB "nX" (by decide)

/-- Claim C9: the claim says both wrapper operations render a miss as the
fixed sentinel string.  The search wrapper does, but the id wrapper guards
with `if not result:` on the manager's result 2-tuple, which is always
truthy in Python, so on a miss it returns the raw pair `(None, [])` instead
of the sentinel. -/
theorem tool_get_node_by_id_miss_returns_raw_pair :
    tool_get_node_by_id emptyStore "n1" = ToolOutput.pair (none, []) ∧
    tool_get_node_by_id emptyStore "n1" ≠
      ToolOutput.text "No code found for the given query" ∧
    tool_search_nodes_by_text emptyStore (fun _ => []) "r" "n1" =
      ToolOutput.text "No code found for the given query" := by
  decide

/-- Claim C10: `get_node_by_id` filters on `node_id` alone — whenever the
first stored node whose `node_id` matches is one whose partition tags
differ from the manager's `(repo_id, entity_id)`, that node is still the
one returned; and the one-hop expansion includes the outgoing
relationships of every node carrying that `node_id`, again with no
partition condition. -/
theorem get_node_by_id_ignores_partition (st : Store) (nid r e : String) (n : StoredNode)
    (hfind : st.nodes.find?
      (fun m => plookup m.props "node_id" == some (PVal.s nid)) = some n)
    (hforeign : plookup n.props "repoId" ≠ some (PVal.s r) ∨
      plookup n.props "entityId" ≠ some (PVal.s e)) :
    (get_node_by_id st nid).1 = some (mkNodeResult n) ∧
    (get_node_by_id st nid).2 = get_1_hop_neighbors_and_relations st nid ∧
    (plookup n.props "repoId" ≠ some (PVal.s r) ∨
      plookup n.props "entityId" ≠ some (PVal.s e)) ∧
    (∀ (k : Nat) (rl : StoredRel) (p p2 : StoredNode),
      st.rels.get? k = some rl →
      st.nodes.get? rl.src = some p →
      st.nodes.get? rl.tgt = some p2 →
      plookup p.props "node_id" = some (PVal.s nid) →
      (⟨plookup p2.props "node_id", plookup p2.props "name", p2.labels,
        rl.relType⟩ : NeighborResult) ∈ (get_node_by_id st nid).2) := by
  have hres : get_node_by_id st nid =
      (some (mkNodeResult n), get_1_hop_neighbors_and_relations st nid) := by
    unfold get_node_by_id
    rw [hfind]
  refine ⟨by rw [hres], by rw [hres], hforeign, ?_⟩
  intro k rl p p2 hk hp hp2 hid
  rw [hres]
  show _ ∈ get_1_hop_neighbors_and_relations st nid
  unfold get_1_hop_neighbors_and_relations get_1_hop_val
  rw [List.mem_filterMap]
  refine ⟨rl, List.get?_mem hk, ?_⟩
  rw [hp, hp2]
  simp [hid]

/-- Witness for Claim C10: the id `n2` exists only in partition
`(r2, e2)`, yet a manager for `(r1, e1)` still resolves it. -/
theorem get_node_by_id_ignores_partition_witness :
    (get_node_by_id fxStoreAB "n2").1 = some (mkNodeResult fxStoredB) :=
  (get_node_by_id_ignores_partition fxStoreAB "n2" "r1" "e1" fxStoredB (by decide)
    (Or.inl (by decide))).1
